import Mathlib

/-!
Shallow embedding of the FORT-validator RTR server's client registry
(src/src/clients.h and spec §3-§4.1; the clients.c implementation is not
among the given sources) and of its configuration loader
(src/src/configuration.c), together with proofs of the claimed properties.
-/

/-- One registry entry: struct client of src/src/clients.h (fd, addr,
serial_number, serial_number_set).  Modelled from the spec: clients.c is not
under src/, so the entry also carries the worker thread handle (pthread_t)
that clients_add receives and that clients_db_destroy hands to the join
callback (spec §3 worker_handle).  serial_t and sockaddr_storage are opaque
to the registry and are modelled as Nat. -/
structure Client where
  fd : Int
  addr : Nat
  serial_number : Nat
  serial_number_set : Bool
  thread : Nat
deriving DecidableEq, Repr

/-- The registry table: the currently registered entries, in the internal
table order (which the header does not fix). -/
abbrev ClientsDB := List Client

/-- The registry's error taxonomy (spec §7).  AllocationFailure can only
arise from clients_db_init's memory allocation, which the model does not
represent. -/
inductive ClientsErr where
  | DuplicateKey
  | NotFound
  | EmptySet
deriving DecidableEq, Repr

/-- Modelled from the spec: clients.c is not under src/.  clients_db_init
(§4.1 init) produces the empty table. -/
def clients_db_init : ClientsDB := []

/-- Modelled from the spec: clients.c is not under src/.  clients_add (§4.1
add) creates a new entry with serial_number_set = false and fails with
DuplicateKey when the connection id is already registered; clients.h line 20
declares an int return, so the caller-visible outcome is paired with the
table.  A failed add leaves the table untouched. -/
def clients_add (db : ClientsDB) (fd : Int) (addr : Nat) (thread : Nat) :
    Option ClientsErr × ClientsDB :=
  if db.any (fun c => c.fd == fd) then (some .DuplicateKey, db)
  else (none, (⟨fd, addr, 0, false, thread⟩ : Client) :: db)

/-- Modelled from the spec: clients.c is not under src/.  clients_update_serial
(§4.1 update_serial) sets serial_number and serial_number_set on the matching
entry.  clients.h line 21 declares the function void, so the caller-visible
return is Unit: no outcome of any kind reaches the caller. -/
def clients_update_serial (db : ClientsDB) (fd : Int) (serial : Nat) :
    Unit × ClientsDB :=
  ((), db.map (fun c =>
    if c.fd == fd then
      { c with serial_number := serial, serial_number_set := true }
    else c))

/-- Modelled from the spec: clients.c is not under src/.  clients_forget
(§4.1 forget) removes the matching entry.  clients.h line 22 declares the
function void, so the caller-visible return is Unit: no outcome of any kind
reaches the caller. -/
def clients_forget (db : ClientsDB) (fd : Int) : Unit × ClientsDB :=
  ((), db.filter (fun c => c.fd != fd))

/-- Modelled from the spec: clients.c is not under src/.  clients_get_addr
(§4.1 get_addr) returns the stored peer address, or NotFound. -/
def clients_get_addr (db : ClientsDB) (fd : Int) : Except ClientsErr Nat :=
  match db.find? (fun c => c.fd == fd) with
  | none => .error .NotFound
  | some c => .ok c.addr

/-- The serial numbers of the entries whose serial_number_set flag is true. -/
def syncedSerials (db : ClientsDB) : List Nat :=
  (db.filter (fun c => c.serial_number_set)).map (fun c => c.serial_number)

/-- Modelled from the spec: clients.c is not under src/.
clients_get_min_serial (§4.1 get_min_serial) computes the minimum
serial_number over the entries with serial_number_set = true, failing with
EmptySet when there is none. -/
def clients_get_min_serial (db : ClientsDB) : Except ClientsErr Nat :=
  match syncedSerials db with
  | [] => .error .EmptySet
  | s :: rest => .ok (rest.foldl Nat.min s)

/-- Modelled from the spec: clients.c is not under src/.  clients_foreach
(§4.1 foreach) invokes the visit callback once per registered entry; the
callback's untyped void-pointer context is modelled as state threaded
through the fold. -/
def clients_foreach {σ : Type} (db : ClientsDB) (visit : Client → σ → σ)
    (arg : σ) : σ :=
  db.foldl (fun s c => visit c s) arg

/-- Modelled from the spec: clients.c is not under src/.  clients_db_destroy
(§4.1 destroy) hands every still-registered entry's worker handle to the
caller-supplied join callback and then releases the table; the model
accordingly yields only the join callback's final state, and no successor
registry value exists. -/
def clients_db_destroy {σ : Type} (db : ClientsDB) (join : Nat → σ → σ)
    (arg : σ) : σ :=
  db.foldl (fun s c => join c.thread s) arg

/-- The connection ids of a table, in table order. -/
def dbIds (db : ClientsDB) : List Int := db.map (fun c => c.fd)

/-! Small facts about membership and the fold helpers, shared by the
claim theorems. -/

theorem any_fd_eq_false_iff (db : ClientsDB) (fd : Int) :
    db.any (fun c => c.fd == fd) = false ↔ ∀ c ∈ db, c.fd ≠ fd := by
  simp [List.any_eq_true]

theorem mem_dbIds (db : ClientsDB) (fd : Int) :
    fd ∈ dbIds db ↔ ∃ c ∈ db, c.fd = fd := by
  simp [dbIds, List.mem_map, eq_comm]

theorem nodup_fd_inj (db : ClientsDB) (hnd : (dbIds db).Nodup)
    (c c' : Client) (hc : c ∈ db) (hc' : c' ∈ db) (hfd : c'.fd = c.fd) :
    c' = c := by
  exact List.inj_on_of_nodup_map hnd hc' hc hfd

theorem foldl_min_spec (rest : List Nat) (s : Nat) :
    (rest.foldl Nat.min s = s ∨ rest.foldl Nat.min s ∈ rest) ∧
    rest.foldl Nat.min s ≤ s ∧ ∀ x ∈ rest, rest.foldl Nat.min s ≤ x := by
  induction rest generalizing s with
  | nil => simp
  | cons a l ih =>
    obtain ⟨hmem, hle, hall⟩ := ih (Nat.min s a)
    refine ⟨?_, ?_, ?_⟩
    · rcases hmem with h | h
      · rw [List.foldl_cons, h]
        rcases Nat.le_total s a with hsa | has
        · exact Or.inl (Nat.min_eq_left hsa)
        · exact Or.inr (by simp [Nat.min_eq_right has])
      · exact Or.inr (List.mem_cons_of_mem a h)
    · exact le_trans hle (Nat.min_le_left s a)
    · intro x hx
      rcases List.mem_cons.1 hx with rfl | hx
      · exact le_trans hle (Nat.min_le_right s x)
      · exact hall x hx

theorem mem_syncedSerials (db : ClientsDB) (n : Nat) :
    n ∈ syncedSerials db ↔
      ∃ c ∈ db, c.serial_number_set = true ∧ c.serial_number = n := by
  simp only [syncedSerials, List.mem_map, List.mem_filter]
  constructor
  · rintro ⟨c, ⟨hc, hset⟩, rfl⟩
    exact ⟨c, hc, hset, rfl⟩
  · rintro ⟨c, hc, hset, rfl⟩
    exact ⟨c, ⟨hc, hset⟩, rfl⟩

/-- C1: clients_get_min_serial returns the minimum serial_number over
exactly the registered entries with serial_number_set = true, fails with
EmptySet precisely when no registered entry has serial_number_set = true,
and entries with serial_number_set = false never influence the result
(dropping them changes nothing). -/
theorem clients_get_min_serial_correct (db : ClientsDB) :
    (clients_get_min_serial db = Except.error ClientsErr.EmptySet ↔
      ∀ c ∈ db, c.serial_number_set = false) ∧
    (∀ m : Nat, clients_get_min_serial db = Except.ok m →
      (∃ c ∈ db, c.serial_number_set = true ∧ c.serial_number = m) ∧
      ∀ c ∈ db, c.serial_number_set = true → m ≤ c.serial_number) ∧
    clients_get_min_serial db =
      clients_get_min_serial (db.filter (fun c => c.serial_number_set)) := by
  refine ⟨?_, ?_, ?_⟩
  · constructor
    · intro herr c hc
      unfold clients_get_min_serial at herr
      rcases hsync : syncedSerials db with - | ⟨s, rest⟩
      · by_contra hset
        have : c.serial_number ∈ syncedSerials db :=
          (mem_syncedSerials db _).2
            ⟨c, hc, Bool.of_not_eq_false hset, rfl⟩
        rw [hsync] at this
        exact absurd this (List.not_mem_nil _)
      · rw [hsync] at herr
        exact absurd herr (by simp)
    · intro hall
      have hsync : syncedSerials db = [] := by
        rcases hsync : syncedSerials db with - | ⟨s, rest⟩
        · rfl
        · have : s ∈ syncedSerials db := by rw [hsync]; exact List.mem_cons_self s rest
          obtain ⟨c, hc, hset, -⟩ := (mem_syncedSerials db s).1 this
          rw [hall c hc] at hset
          exact absurd hset (by simp)
      unfold clients_get_min_serial
      rw [hsync]
  · intro m hm
    unfold clients_get_min_serial at hm
    rcases hsync : syncedSerials db with - | ⟨s, rest⟩
    · rw [hsync] at hm; exact absurd hm (by simp)
    · rw [hsync] at hm
      have hm' : rest.foldl Nat.min s = m := by
        have := hm
        simp only [Except.ok.injEq] at this
        exact this
      obtain ⟨hmem, hle, hall⟩ := foldl_min_spec rest s
      constructor
      · have hms : m ∈ syncedSerials db := by
          rw [hsync]
          rcases hmem with h | h
          · rw [← hm', h]; exact List.mem_cons_self s rest
          · rw [← hm']; exact List.mem_cons_of_mem s h
        exact (mem_syncedSerials db m).1 hms
      · intro c hc hset
        have hcm : c.serial_number ∈ syncedSerials db :=
          (mem_syncedSerials db _).2 ⟨c, hc, hset, rfl⟩
        rw [hsync] at hcm
        rcases List.mem_cons.1 hcm with heq | hmem'
        · rw [← hm', heq]; exact hle
        · rw [← hm']; exact hall _ hmem'
  · unfold clients_get_min_serial
    have : syncedSerials (db.filter (fun c => c.serial_number_set)) =
        syncedSerials db := by
      unfold syncedSerials
      rw [List.filter_filter]
      simp
    rw [this]


/-! Sequences of registry calls, for the lifecycle claims. -/

/-- One registry call in a client lifecycle: clients_add, clients_update_serial
or clients_forget with its arguments. -/
inductive RegOp where
  | add (fd : Int) (addr : Nat) (thread : Nat)
  | upd (fd : Int) (serial : Nat)
  | forget (fd : Int)
deriving DecidableEq, Repr

/-- The table after one registry call (the caller-visible outcome dropped). -/
def applyOp (db : ClientsDB) : RegOp → ClientsDB
  | .add fd a t => (clients_add db fd a t).2
  | .upd fd s => (clients_update_serial db fd s).2
  | .forget fd => (clients_forget db fd).2

/-- The table reached by a sequence of registry calls on a freshly
initialized registry. -/
def runOps (ops : List RegOp) : ClientsDB := ops.foldl applyOp clients_db_init

/-- One step of the specification-level id set: a successful add inserts the
id, forget removes it, update_serial leaves it unchanged. -/
def specStep (s : List Int) : RegOp → List Int
  | .add fd _ _ => if fd ∈ s then s else fd :: s
  | .upd _ _ => s
  | .forget fd => s.filter (fun x => x != fd)

/-- The specification-level id set after a call sequence: the ids
successfully added and not since forgotten (spec §8). -/
def specIds (ops : List RegOp) : List Int := ops.foldl specStep []

theorem applyOp_ids_step (db : ClientsDB) (op : RegOp) (s : List Int)
    (hiff : ∀ fd, fd ∈ dbIds db ↔ fd ∈ s) :
    ∀ fd, fd ∈ dbIds (applyOp db op) ↔ fd ∈ specStep s op := by
  intro fd
  cases op with
  | add fd' a t =>
    simp only [applyOp, clients_add, specStep]
    rcases hany : db.any (fun c => c.fd == fd') with - | -
    · have habs : fd' ∉ dbIds db := by
        rw [mem_dbIds]
        rintro ⟨c, hc, rfl⟩
        exact ((any_fd_eq_false_iff db c.fd).1 hany c hc) rfl
      have habs' : fd' ∉ s := fun h => habs ((hiff fd').2 h)
      simp only [hany, Bool.false_eq_true, if_false, if_neg habs']
      simp only [dbIds, List.map_cons, List.mem_cons]
      rw [← dbIds]
      constructor
      · rintro (rfl | h)
        · exact Or.inl rfl
        · exact Or.inr ((hiff fd).1 h)
      · rintro (rfl | h)
        · exact Or.inl rfl
        · exact Or.inr ((hiff fd).2 h)
    · have hpres : fd' ∈ dbIds db := by
        rw [mem_dbIds]
        simp only [List.any_eq_true, beq_iff_eq] at hany
        obtain ⟨c, hc, hcfd⟩ := hany
        exact ⟨c, hc, hcfd⟩
      have hpres' : fd' ∈ s := (hiff fd').1 hpres
      simp only [hany, if_true, if_pos hpres']
      exact hiff fd
  | upd fd' serial =>
    simp only [applyOp, clients_update_serial, specStep]
    have : dbIds (db.map (fun c =>
        if c.fd == fd' then
          { c with serial_number := serial, serial_number_set := true }
        else c)) = dbIds db := by
      unfold dbIds
      rw [List.map_map]
      refine List.map_congr_left ?_
      intro c _
      by_cases h : c.fd = fd' <;> simp [h]
    rw [this]
    exact hiff fd
  | forget fd' =>
    simp only [applyOp, clients_forget, specStep]
    simp only [dbIds, List.mem_map, List.mem_filter, bne_iff_ne]
    constructor
    · rintro ⟨c, ⟨hc, hne⟩, rfl⟩
      exact ⟨(hiff c.fd).1 (List.mem_map_of_mem _ hc), by simpa using hne⟩
    · rintro ⟨hfd, hne⟩
      obtain ⟨c, hc, rfl⟩ := (mem_dbIds db fd).1 ((hiff fd).2 hfd)
      exact ⟨c, ⟨hc, by simpa using hne⟩, rfl⟩

theorem applyOp_nodup (db : ClientsDB) (op : RegOp)
    (hnd : (dbIds db).Nodup) : (dbIds (applyOp db op)).Nodup := by
  cases op with
  | add fd a t =>
    simp only [applyOp, clients_add]
    rcases hany : db.any (fun c => c.fd == fd) with - | -
    · have habs : fd ∉ dbIds db := by
        rw [mem_dbIds]
        rintro ⟨c, hc, rfl⟩
        exact ((any_fd_eq_false_iff db c.fd).1 hany c hc) rfl
      simp only [hany, Bool.false_eq_true, if_false]
      simp only [dbIds, List.map_cons]
      exact List.nodup_cons.2 ⟨habs, hnd⟩
    · simpa [hany] using hnd
  | upd fd serial =>
    simp only [applyOp, clients_update_serial]
    have : dbIds (db.map (fun c =>
        if c.fd == fd then
          { c with serial_number := serial, serial_number_set := true }
        else c)) = dbIds db := by
      unfold dbIds
      rw [List.map_map]
      refine List.map_congr_left ?_
      intro c _
      by_cases h : c.fd = fd <;> simp [h]
    rw [this]
    exact hnd
  | forget fd =>
    simp only [applyOp, clients_forget]
    exact List.Nodup.sublist (List.Sublist.map _ (List.filter_sublist db)) hnd

theorem runOps_invariant (ops : List RegOp) (db : ClientsDB) (s : List Int)
    (hnd : (dbIds db).Nodup) (hiff : ∀ fd, fd ∈ dbIds db ↔ fd ∈ s) :
    (dbIds (ops.foldl applyOp db)).Nodup ∧
    ∀ fd, fd ∈ dbIds (ops.foldl applyOp db) ↔ fd ∈ ops.foldl specStep s := by
  induction ops generalizing db s with
  | nil => exact ⟨hnd, hiff⟩
  | cons op rest ih =>
    simp only [List.foldl_cons]
    exact ih (applyOp db op) (specStep s op) (applyOp_nodup db op hnd)
      (applyOp_ids_step db op s hiff)

theorem clients_foreach_trace (db : ClientsDB) (a : List Client) :
    clients_foreach db (fun c l => l ++ [c]) a = a ++ db := by
  induction db generalizing a with
  | nil => simp [clients_foreach]
  | cons c cs ih =>
    simp only [clients_foreach, List.foldl_cons] at *
    rw [ih (a ++ [c])]
    simp

/-- C2: after any finite sequence of registry calls on a freshly initialized
registry, no connection id is registered twice, and the ids visible to
queries (clients_get_addr) and visited by clients_foreach are exactly the
ids successfully added minus the ids forgotten. -/
theorem clients_visible_ids_correct (ops : List RegOp) :
    (dbIds (runOps ops)).Nodup ∧
    (∀ fd : Int, fd ∈ dbIds (runOps ops) ↔ fd ∈ specIds ops) ∧
    (∀ fd : Int,
      (∃ c ∈ clients_foreach (runOps ops) (fun c l => l ++ [c])
          ([] : List Client), c.fd = fd) ↔ fd ∈ specIds ops) ∧
    (∀ fd : Int, clients_get_addr (runOps ops) fd =
        Except.error ClientsErr.NotFound ↔ fd ∉ specIds ops) := by
  obtain ⟨hnd0, hiff0⟩ := runOps_invariant ops clients_db_init []
    (by simp [clients_db_init, dbIds]) (by simp [clients_db_init, dbIds])
  have hnd : (dbIds (runOps ops)).Nodup := hnd0
  have hiff : ∀ fd, fd ∈ dbIds (runOps ops) ↔ fd ∈ specIds ops := fun fd =>
    hiff0 fd
  refine ⟨hnd, hiff, ?_, ?_⟩
  · intro fd
    rw [clients_foreach_trace (runOps ops) [], List.nil_append]
    rw [← hiff fd, mem_dbIds]
  · intro fd
    rw [← hiff fd, mem_dbIds]
    rcases hfind : (runOps ops).find? (fun c => c.fd == fd) with - | ⟨c⟩
    · simp only [clients_get_addr, hfind, true_iff]
      simp only [List.find?_eq_none, beq_iff_eq] at hfind
      rintro ⟨c, hc, rfl⟩
      exact hfind c hc rfl
    · have hcfd : c.fd = fd := by
        have := List.find?_some hfind
        simpa using this
      have hmem : c ∈ runOps ops := List.mem_of_find?_eq_some hfind
      simp only [clients_get_addr, hfind]
      constructor
      · intro h
        exact absurd h (by simp)
      · intro hne
        exact absurd ⟨c, hmem, hcfd⟩ hne

/-- C3 (amended): clients_update_serial is declared void in clients.h line
21, so its caller-visible return is always the unit value and no NotFound
outcome exists; on an unregistered id the table is unchanged, and a
registered id's entry gets serial_number := serial and
serial_number_set := true. -/
theorem clients_update_serial_behavior (db : ClientsDB) (fd : Int)
    (serial : Nat) :
    (clients_update_serial db fd serial).1 = () ∧
    ((∀ c ∈ db, c.fd ≠ fd) → (clients_update_serial db fd serial).2 = db) ∧
    (∀ c ∈ db, c.fd = fd →
      ({ c with serial_number := serial, serial_number_set := true } : Client)
        ∈ (clients_update_serial db fd serial).2) := by
  refine ⟨rfl, ?_, ?_⟩
  · intro habs
    simp only [clients_update_serial]
    have : db.map (fun c =>
        if c.fd == fd then
          ({ c with serial_number := serial, serial_number_set := true } : Client)
        else c) = db.map id := by
      refine List.map_congr_left ?_
      intro c hc
      simp [habs c hc]
    rw [this, List.map_id]
  · intro c hc hcfd
    simp only [clients_update_serial]
    have : (if c.fd == fd then
        ({ c with serial_number := serial, serial_number_set := true } : Client)
        else c) =
        ({ c with serial_number := serial, serial_number_set := true } : Client) := by
      simp [hcfd]
    rw [← this]
    exact List.mem_map_of_mem _ hc

/-- C3 (counterexample): the claim says clients_update_serial on an
unregistered id "fails with NotFound and returns that outcome to the
caller", but clients.h line 21 declares the function void.  Concretely, the
call on the unregistered id 7 of the empty registry leaves the registry
unchanged and hands the caller exactly the same (unit) return value as a
call on a registry where id 7 is registered: no NotFound outcome is ever
returned. -/
theorem clients_update_serial_void_no_outcome :
    (clients_update_serial [] 7 5).2 = [] ∧
    (clients_update_serial [] 7 5).1 =
      (clients_update_serial
        [({ fd := 7, addr := 0, serial_number := 0, serial_number_set := false,
            thread := 0 } : Client)] 7 5).1 := by
  exact ⟨rfl, rfl⟩

/-- C4 (amended): clients_forget removes the matching entry and keeps every
other entry, but clients.h line 22 declares it void, so an absent id makes
the call a silent no-op: the caller receives the unit value either way, and
a second forget of the same id leaves the registry unchanged. -/
theorem clients_forget_behavior (db : ClientsDB) (fd : Int) :
    (clients_forget db fd).1 = () ∧
    (∀ c ∈ (clients_forget db fd).2, c.fd ≠ fd) ∧
    (∀ c ∈ db, c.fd ≠ fd → c ∈ (clients_forget db fd).2) ∧
    ((∀ c ∈ db, c.fd ≠ fd) → (clients_forget db fd).2 = db) ∧
    (clients_forget (clients_forget db fd).2 fd).2 = (clients_forget db fd).2 := by
  refine ⟨rfl, ?_, ?_, ?_, ?_⟩
  · intro c hc
    have := (List.mem_filter.1 hc).2
    simpa using this
  · intro c hc hne
    exact List.mem_filter.2 ⟨hc, by simpa using hne⟩
  · intro habs
    simp only [clients_forget]
    refine List.filter_eq_self.2 ?_
    intro c hc
    simpa using habs c hc
  · simp only [clients_forget]
    rw [List.filter_filter]
    refine congrFun (congrArg _ ?_) db
    funext c
    cases h : (c.fd != fd) <;> simp [h]

/-- C4 (counterexample): the claim says a second clients_forget of an absent
id "fails with NotFound as a returned outcome", but clients.h line 22
declares the function void.  Concretely, forgetting id 3 twice: the second
call leaves the registry unchanged and hands the caller exactly the same
(unit) return value as the first, successful, removal — no NotFound outcome
is ever returned. -/
theorem clients_forget_void_no_outcome :
    (clients_forget ((clients_forget
        [({ fd := 3, addr := 1, serial_number := 0, serial_number_set := false,
            thread := 9 } : Client)] 3).2) 3).2 =
      (clients_forget
        [({ fd := 3, addr := 1, serial_number := 0, serial_number_set := false,
            thread := 9 } : Client)] 3).2 ∧
    (clients_forget ((clients_forget
        [({ fd := 3, addr := 1, serial_number := 0, serial_number_set := false,
            thread := 9 } : Client)] 3).2) 3).1 =
      (clients_forget
        [({ fd := 3, addr := 1, serial_number := 0, serial_number_set := false,
            thread := 9 } : Client)] 3).1 := by
  exact ⟨rfl, rfl⟩

/-- C5: a second clients_add with the same connection id and no intervening
forget fails with DuplicateKey, leaves the table exactly as it was, and the
first call's entry — peer address, serial state and worker handle included —
is still the unique entry registered under that id. -/
theorem clients_add_duplicate_rejected (db : ClientsDB) (fd : Int)
    (a t a' t' : Nat) (db' : ClientsDB)
    (h : clients_add db fd a t = (none, db')) :
    clients_add db' fd a' t' = (some ClientsErr.DuplicateKey, db') ∧
    (⟨fd, a, 0, false, t⟩ : Client) ∈ db' ∧
    ∀ c ∈ db', c.fd = fd →
      c = (⟨fd, a, 0, false, t⟩ : Client) := by
  have hany : db.any (fun c => c.fd == fd) = false := by
    rcases hany : db.any (fun c => c.fd == fd) with - | -
    · rfl
    · rw [clients_add, if_pos hany] at h
      exact absurd (congrArg Prod.fst h) (by simp)
  have hdb' : db' = (⟨fd, a, 0, false, t⟩ : Client) :: db := by
    rw [clients_add, hany] at h
    simpa using (congrArg Prod.snd h).symm
  have hfresh : ∀ c ∈ db, c.fd ≠ fd := (any_fd_eq_false_iff db fd).1 hany
  refine ⟨?_, ?_, ?_⟩
  · rw [clients_add, if_pos ?_]
    rw [hdb']
    simp
  · rw [hdb']
    exact List.mem_cons_self _ _
  · intro c hc hcfd
    rw [hdb'] at hc
    rcases List.mem_cons.1 hc with rfl | hc
    · rfl
    · exact absurd hcfd (hfresh c hc)

/-- C5 witness: the theorem applied to a concrete registry: after a
successful add of id 4, a second add of id 4 fails with DuplicateKey and
the original entry survives untouched. -/
theorem clients_add_duplicate_rejected_witness :
    clients_add [(⟨4, 9, 0, false, 2⟩ : Client)] 4 7 3 =
      (some ClientsErr.DuplicateKey, [(⟨4, 9, 0, false, 2⟩ : Client)]) ∧
    (⟨4, 9, 0, false, 2⟩ : Client) ∈ [(⟨4, 9, 0, false, 2⟩ : Client)] ∧
    ∀ c ∈ [(⟨4, 9, 0, false, 2⟩ : Client)], c.fd = 4 →
      c = (⟨4, 9, 0, false, 2⟩ : Client) :=
  clients_add_duplicate_rejected [] 4 9 2 7 3 [(⟨4, 9, 0, false, 2⟩ : Client)] rfl

/-- C6: serial_number_set is monotone over an entry's lifetime.  On a table
whose connection ids are unique (the registry invariant), no registry call
reverts an entry's serial_number_set from true to false; an entry freshly
created by a successful clients_add starts with serial_number_set = false;
and after clients_update_serial for a registered id, that id's entry has
serial_number_set = true. -/
theorem serial_number_set_monotone (db : ClientsDB) (op : RegOp)
    (hnd : (dbIds db).Nodup) :
    (∀ c ∈ db, c.serial_number_set = true →
      ∀ c' ∈ applyOp db op, c'.fd = c.fd → c'.serial_number_set = true) ∧
    (∀ fd : Int, ∀ a t : Nat, (∀ c ∈ db, c.fd ≠ fd) →
      ∀ c' ∈ (clients_add db fd a t).2, c'.fd = fd →
        c'.serial_number_set = false) ∧
    (∀ fd : Int, ∀ s : Nat,
      ∀ c' ∈ (clients_update_serial db fd s).2, c'.fd = fd →
        c'.serial_number_set = true) := by
  refine ⟨?_, ?_, ?_⟩
  · intro c hc hset c' hc' hfd
    cases op with
    | add fd' a t =>
      simp only [applyOp, clients_add] at hc'
      rcases hany : db.any (fun x => x.fd == fd') with - | -
      · rw [hany] at hc'
        simp only [Bool.false_eq_true, if_false] at hc'
        rcases List.mem_cons.1 hc' with rfl | hc'
        · exact absurd hfd.symm ((any_fd_eq_false_iff db fd').1 hany c hc)
        · rw [nodup_fd_inj db hnd c c' hc hc' hfd]
          exact hset
      · rw [hany] at hc'
        simp only [if_true] at hc'
        rw [nodup_fd_inj db hnd c c' hc hc' hfd]
        exact hset
    | upd fd' s =>
      simp only [applyOp, clients_update_serial] at hc'
      obtain ⟨u, hu, rfl⟩ := List.mem_map.1 hc'
      rcases hufd : u.fd == fd' with - | -
      · simp only [hufd, Bool.false_eq_true, if_false] at hfd ⊢
        rw [nodup_fd_inj db hnd c u hc hu hfd]
        exact hset
      · simp only [hufd, if_true]
    | forget fd' =>
      simp only [applyOp, clients_forget] at hc'
      have hc'' := (List.mem_filter.1 hc').1
      rw [nodup_fd_inj db hnd c c' hc hc'' hfd]
      exact hset
  · intro fd a t hfresh c' hc' hfd
    have hany : db.any (fun c => c.fd == fd) = false :=
      (any_fd_eq_false_iff db fd).2 hfresh
    simp only [clients_add, hany, Bool.false_eq_true, if_false] at hc'
    rcases List.mem_cons.1 hc' with rfl | hc'
    · rfl
    · exact absurd hfd (hfresh c' hc')
  · intro fd s c' hc' hfd
    simp only [clients_update_serial] at hc'
    obtain ⟨u, hu, rfl⟩ := List.mem_map.1 hc'
    rcases hufd : u.fd == fd with - | -
    · simp only [hufd, Bool.false_eq_true, if_false] at hfd
      exact absurd hfd (by simpa using hufd)
    · simp only [hufd, if_true]

/-- C6 witness: the theorem at the one-entry registry holding id 1 with
serial_number_set = true and the call clients_update_serial 1 5. -/
theorem serial_number_set_monotone_witness :
    (∀ c ∈ [(⟨1, 10, 4, true, 100⟩ : Client)], c.serial_number_set = true →
      ∀ c' ∈ applyOp [(⟨1, 10, 4, true, 100⟩ : Client)] (RegOp.upd 1 5),
        c'.fd = c.fd → c'.serial_number_set = true) ∧
    (∀ fd : Int, ∀ a t : Nat,
      (∀ c ∈ [(⟨1, 10, 4, true, 100⟩ : Client)], c.fd ≠ fd) →
      ∀ c' ∈ (clients_add [(⟨1, 10, 4, true, 100⟩ : Client)] fd a t).2,
        c'.fd = fd → c'.serial_number_set = false) ∧
    (∀ fd : Int, ∀ s : Nat,
      ∀ c' ∈ (clients_update_serial [(⟨1, 10, 4, true, 100⟩ : Client)] fd s).2,
        c'.fd = fd → c'.serial_number_set = true) :=
  serial_number_set_monotone [(⟨1, 10, 4, true, 100⟩ : Client)]
    (RegOp.upd 1 5) (by decide)

theorem clients_db_destroy_count (db : ClientsDB) (h : Nat) (n : Nat) :
    clients_db_destroy db (fun t k => if t = h then k + 1 else k) n =
      n + (db.map (fun c => c.thread)).count h := by
  induction db generalizing n with
  | nil => simp [clients_db_destroy]
  | cons c cs ih =>
    simp only [clients_db_destroy, List.foldl_cons] at *
    rw [ih]
    by_cases hch : c.thread = h <;>
      simp [List.count_cons, hch, Nat.add_comm, Nat.add_assoc, Nat.add_left_comm]

theorem clients_db_destroy_trace (db : ClientsDB) (a : List Nat) :
    clients_db_destroy db (fun t l => l ++ [t]) a =
      a ++ db.map (fun c => c.thread) := by
  induction db generalizing a with
  | nil => simp [clients_db_destroy]
  | cons c cs ih =>
    simp only [clients_db_destroy, List.foldl_cons, List.map_cons] at *
    rw [ih (a ++ [c.thread])]
    simp

/-- C7: clients_db_destroy surfaces each registered entry's worker handle to
the join callback exactly once: a join callback that counts its invocations
with handle h ends at exactly the number of registered entries owning h
(never zero and never twice per entry), and a join callback that records its
argument sequence receives exactly the per-entry handle list.  The model
returns only the join callback's final state: no successor registry value
exists, so no further operation can be run on the destroyed table. -/
theorem clients_db_destroy_joins_once (db : ClientsDB) (h : Nat) :
    clients_db_destroy db (fun t k => if t = h then k + 1 else k) 0 =
      (db.map (fun c => c.thread)).count h ∧
    clients_db_destroy db (fun t l => l ++ [t]) ([] : List Nat) =
      db.map (fun c => c.thread) := by
  constructor
  · rw [clients_db_destroy_count db h 0]
    simp
  · rw [clients_db_destroy_trace db []]
    simp

/-! Configuration loader: src/src/configuration.c. -/

/-- JSON values as the loader inspects them through jansson: objects with
distinct keys (config_init parses with JSON_REJECT_DUPLICATES), strings,
64-bit integers (json_int_t), and everything else — which only ever fails
the json_is_object / json_is_string / json_is_integer checks. -/
inductive Json where
  | obj (fields : List (String × Json))
  | str (s : String)
  | int (n : Int)
  | other
deriving Repr

def EINVAL : Int := 22

def ENOENT : Int := 2

/-- jansson's json_object_get: the value stored under the key, when the
receiver is an object holding it. -/
def json_object_get (j : Json) (name : String) : Option Json :=
  match j with
  | .obj fields => (fields.find? (fun kv => kv.1 == name)).map (fun kv => kv.2)
  | _ => none

/-- The conversion the assignment *result = json_integer_value(child) in
json_get_int performs: a 64-bit json_int_t stored into a 32-bit C int,
wrapping modulo 2^32 into two's complement (gcc's implementation-defined
behavior for out-of-range signed conversions). -/
def wrap32 (n : Int) : Int :=
  let m := n % 4294967296
  if m < 2147483648 then m else m - 4294967296

/-- json_get_int (configuration.c:221-240): an absent key stores the
default, a present non-integer returns -EINVAL, and a present integer is
stored through *result — an int — without any range check, truncating the
64-bit value.  The Except value is *result on success, the returned error
on failure. -/
def json_get_int (parent : Json) (name : String) (default_value : Int) :
    Except Int Int :=
  match json_object_get parent name with
  | none => .ok default_value
  | some (.int n) => .ok (wrap32 n)
  | some _ => .error (-EINVAL)

/-- json_get_string (configuration.c:202-219): an absent key yields the
default (possibly NULL, hence Option), a present non-string returns
-EINVAL, and a present string is returned. -/
def json_get_string (parent : Json) (name : String)
    (default_value : Option String) : Except Int (Option String) :=
  match json_object_get parent name with
  | none => .ok default_value
  | some (.str s) => .ok (some s)
  | some _ => .error (-EINVAL)

/-- The observable outcome of a configuration routine: a value returned to
the caller, or process termination through err(3) — err prints a message and
calls exit(status), so it never returns and every statement after it is
dead. -/
inductive CRes (α : Type) where
  | ret (v : α)
  | exited (status : Int)
deriving DecidableEq, Repr

def DEFAULT_PORT : String := "323"
def DEFAULT_REFRESH_INTERVAL : Int := 3600
def DEFAULT_RETRY_INTERVAL : Int := 600
def DEFAULT_EXPIRE_INTERVAL : Int := 7200
def MIN_REFRESH_INTERVAL : Int := 1
def MAX_REFRESH_INTERVAL : Int := 86400
def MIN_RETRY_INTERVAL : Int := 1
def MAX_RETRY_INTERVAL : Int := 7200
def MIN_EXPIRE_INTERVAL : Int := 600
def MAX_EXPIRE_INTERVAL : Int := 172800

/-- load_interval (configuration.c:94-113): reads one interval through
json_get_int; on a json_get_int error it calls err(error, ...), and when the
stored value lies outside [min_value, max_value] it calls err(-EINVAL, ...)
— err terminates the process, so the function's own return statements on
those paths are dead code and only the in-range value is ever returned. -/
def load_interval (parent : Json) (name : String) (default_value : Int)
    (min_value max_value : Int) : CRes Int :=
  match json_get_int parent name default_value with
  | .error e => .exited e
  | .ok v =>
    if v < min_value || max_value < v then .exited (-EINVAL) else .ret v

/-- The global struct rtr_config (configuration.c:37-48).  The resolved
struct addrinfo is opaque (getaddrinfo is external), so only whether an
address was stored is kept. -/
structure rtr_config where
  address_set : Bool
  port : Option String
  vrps_location : Option String
  refresh_interval : Int
  retry_interval : Int
  expire_interval : Int
deriving DecidableEq, Repr

/-- The zero-initialized global config at program start: NULL pointers and
zero intervals. -/
def config0 : rtr_config :=
  { address_set := false, port := none, vrps_location := none,
    refresh_interval := 0, retry_interval := 0, expire_interval := 0 }

/-- init_addrinfo (configuration.c:243-265): getaddrinfo is external and is
represented by the gai argument (0 = success).  On failure its code is
returned and the config is untouched; on success the address is stored and
the port recorded. -/
def init_addrinfo (gai : Option String → String → Int)
    (hostname : Option String) (service : String) (cfg : rtr_config) :
    Int × rtr_config :=
  let error := gai hostname service
  if error != 0 then (error, cfg)
  else (0, { cfg with address_set := true, port := some service })

/-- handle_json (configuration.c:116-199): checks that the root is an
object, reads listen.address and listen.port, stores vrpsLocation, loads the
three rtrInterval values — refresh, retry, expire, each through
load_interval, whose failures terminate the process — stores them (or the
defaults when rtrInterval is absent), and finishes with init_addrinfo. -/
def handle_json (gai : Option String → String → Int) (root : Json)
    (cfg : rtr_config) : CRes (Int × rtr_config) :=
  match root with
  | .obj _ =>
    let listenStep : Except Int (Option String × String) :=
      match json_object_get root "listen" with
      | some l =>
        match l with
        | .obj _ =>
          match json_get_string l "address" none with
          | .error e => .error e
          | .ok address =>
            match json_get_string l "port" (some DEFAULT_PORT) with
            | .error e => .error e
            | .ok port => .ok (address, port.getD DEFAULT_PORT)
        | _ => .error (-EINVAL)
      | none => .ok (none, DEFAULT_PORT)
    match listenStep with
    | .error e => .ret (e, cfg)
    | .ok (address, port) =>
      match json_get_string root "vrpsLocation" none with
      | .error e => .ret (e, cfg)
      | .ok vrps =>
        let cfg1 := { cfg with vrps_location := vrps }
        match json_object_get root "rtrInterval" with
        | some interval =>
          match interval with
          | .obj _ =>
            match load_interval interval "refresh" DEFAULT_REFRESH_INTERVAL
                MIN_REFRESH_INTERVAL MAX_REFRESH_INTERVAL with
            | .exited st => .exited st
            | .ret refresh_interval =>
              match load_interval interval "retry" DEFAULT_RETRY_INTERVAL
                  MIN_RETRY_INTERVAL MAX_RETRY_INTERVAL with
              | .exited st => .exited st
              | .ret retry_interval =>
                match load_interval interval "expire" DEFAULT_EXPIRE_INTERVAL
                    MIN_EXPIRE_INTERVAL MAX_EXPIRE_INTERVAL with
                | .exited st => .exited st
                | .ret expire_interval =>
                  let cfg2 := { cfg1 with
                    refresh_interval := refresh_interval,
                    retry_interval := retry_interval,
                    expire_interval := expire_interval }
                  .ret (init_addrinfo gai address port cfg2)
          | _ => .ret (-EINVAL, cfg1)
        | none =>
          let cfg2 := { cfg1 with
            refresh_interval := DEFAULT_REFRESH_INTERVAL,
            retry_interval := DEFAULT_RETRY_INTERVAL,
            expire_interval := DEFAULT_EXPIRE_INTERVAL }
          .ret (init_addrinfo gai address port cfg2)
  | _ => .ret (-EINVAL, cfg)

/-- What config_init (configuration.c:57-82) receives: a NULL path, a path
whose json_load_file parse failed, or the parsed JSON root. -/
inductive ConfigInput where
  | noPath
  | parseFailure
  | parsed (root : Json)

/-- config_init (configuration.c:57-82): with a NULL path it only resolves
the default address; a parse failure returns -ENOENT; otherwise handle_json
runs on the parsed root. -/
def config_init (gai : Option String → String → Int) (input : ConfigInput)
    (cfg : rtr_config) : CRes (Int × rtr_config) :=
  match input with
  | .noPath => .ret (init_addrinfo gai none DEFAULT_PORT cfg)
  | .parseFailure => .ret (-ENOENT, cfg)
  | .parsed root => handle_json gai root cfg

/-- A getaddrinfo stand-in that always succeeds, for evaluating the loader
on concrete inputs. -/
def gai0 : Option String → String → Int := fun _ _ => 0

/-- A configuration whose rtrInterval object sets refresh to n. -/
def jIntervals (n : Int) : Json := Json.obj [("refresh", Json.int n)]

/-- A configuration root whose rtrInterval object sets refresh to n. -/
def jRefresh (n : Int) : Json := Json.obj [("rtrInterval", jIntervals n)]

/-- C9: on the configuration {"rtrInterval": {"refresh": 0}} — refresh below
MIN_REFRESH_INTERVAL — config_init does not return -EINVAL: load_interval
calls err(-EINVAL, ...), which terminates the process, so config_init never
returns at all (handle_json's own check of load_interval's return value is
dead code).  An in-range refresh of 50 is accepted and stored. -/
theorem config_init_err_exits_on_out_of_range :
    config_init gai0 (ConfigInput.parsed (jRefresh 0)) config0 =
      CRes.exited (-EINVAL) ∧
    (∀ r : Int × rtr_config,
      config_init gai0 (ConfigInput.parsed (jRefresh 0)) config0 ≠
        CRes.ret r) ∧
    config_init gai0 (ConfigInput.parsed (jRefresh 50)) config0 =
      CRes.ret (0, (⟨true, some "323", none, 50, 600, 7200⟩ : rtr_config)) := by
  refine ⟨by decide, ?_, by decide⟩
  intro r h
  rw [(by decide : config_init gai0 (ConfigInput.parsed (jRefresh 0)) config0 =
    CRes.exited (-EINVAL))] at h
  exact CRes.noConfusion h

/-- C10: json_get_int stores the 64-bit JSON integer into a C int with no
range check, wrapping it modulo 2^32; for refresh = 2^32 + 5 — above
INT_MAX — the stored value is the residue 5, which then passes
load_interval's [1, 86400] range check, and config_init accepts the
configuration and stores refresh_interval = 5. -/
theorem json_get_int_truncates_mod_2_32 :
    (∀ (name : String) (dv n : Int),
      json_get_int (Json.obj [(name, Json.int n)]) name dv =
        Except.ok (wrap32 n)) ∧
    (4294967301 : Int) = 2 ^ 32 + 5 ∧
    (2147483647 : Int) < 4294967301 ∧
    wrap32 4294967301 = 5 ∧
    json_get_int (jIntervals 4294967301) "refresh" DEFAULT_REFRESH_INTERVAL =
      Except.ok 5 ∧
    load_interval (jIntervals 4294967301) "refresh" DEFAULT_REFRESH_INTERVAL
      MIN_REFRESH_INTERVAL MAX_REFRESH_INTERVAL = CRes.ret 5 ∧
    config_init gai0 (ConfigInput.parsed (jRefresh 4294967301)) config0 =
      CRes.ret (0, (⟨true, some "323", none, 5, 600, 7200⟩ : rtr_config)) := by
  refine ⟨?_, by decide, by decide, by decide, rfl, by decide, by decide⟩
  intro name dv n
  simp [json_get_int, json_object_get]
